import Mathlib

/-!
Shallow embedding of the Meteor to-do application.

The server file declares a Mongo collection `Tasks`, three Meteor methods
(`tasks.insert`, `tasks.remove`, `tasks.setChecked`) and a publication
`tasks` (`tasksPublication`).  The client component derives, via
`withTracker`, the sorted visible task list, `incompleteCount` and
`currentUser`, and renders tasks through `renderTasks`.

The Mongo collection is modelled as a `List Task`; optional document
fields (`checked`, `private`) are `Option Bool`, `none` standing for a
field absent from the document.  Method arguments arrive from the wire as
dynamically typed values (`DynVal`); `check(x, String)` / `check(x, Boolean)`
are modelled by `checkString` / `checkBool`, which fail with a match error
exactly when the argument does not have the declared type.  A failing
method leaves the collection unchanged, which the `Except` result makes
explicit.
-/

namespace TodoApp

/-- A document of the `tasks` Mongo collection.  `_id` is the store-assigned
unique key.  `checked` and `private` are `none` when the field is absent. -/
structure Task where
  _id : String
  text : String
  createdAt : Nat
  owner : String
  username : String
  checked : Option Bool := none
  «private» : Option Bool := none
  deriving DecidableEq, Repr

/-- A document of the `Meteor.users` collection, restricted to the fields the
application reads. -/
structure UserDoc where
  _id : String
  username : String
  deriving DecidableEq, Repr

/-- The method invocation context: `this.userId` is the authenticated caller's
user id, or `none` for an unauthenticated connection. -/
structure MethodCtx where
  userId : Option String
  deriving DecidableEq, Repr

/-- A dynamically typed method argument as received from the wire. -/
inductive DynVal where
  | str (s : String)
  | bool (b : Bool)
  | num (n : Int)
  | nullv
  deriving DecidableEq, Repr

/-- Errors a method call can surface to the caller. -/
inductive MeteorError where
  /-- `Meteor.Error('not-authorized')` thrown by `tasks.insert`. -/
  | notAuthorized
  /-- A `check` validation failure (argument does not match the pattern). -/
  | matchError
  /-- A runtime type error, e.g. reading `.username` of `undefined`. -/
  | typeError
  deriving DecidableEq, Repr

/-- Models `check(x, String)`: returns the string or fails with a match
error. -/
def checkString : DynVal → Except MeteorError String
  | .str s => .ok s
  | _ => .error .matchError

/-- Models `check(x, Boolean)`: returns the boolean or fails with a match
error. -/
def checkBool : DynVal → Except MeteorError Bool
  | .bool b => .ok b
  | _ => .error .matchError

/-- Models `Meteor.users.findOne(id)`: the user document with the given
`_id`, if any. -/
def usersFindOne (users : List UserDoc) (id : String) : Option UserDoc :=
  users.find? (fun u => u._id == id)

/-- The `tasks.insert` method.  Checks `text` is a string, throws
`not-authorized` when `this.userId` is absent, and otherwise inserts a new
document with `createdAt = now`, `owner = this.userId` and `username` read
from the caller's user document (`newId` is the store-assigned id of the new
document; reading `.username` of a missing user document is a runtime type
error). -/
def tasksInsert (ctx : MethodCtx) (users : List UserDoc) (now : Nat)
    (newId : String) (textArg : DynVal) (store : List Task) :
    Except MeteorError (List Task) :=
  match checkString textArg with
  | .error e => .error e
  | .ok text =>
    match ctx.userId with
    | none => .error .notAuthorized
    | some uid =>
      match usersFindOne users uid with
      | none => .error .typeError
      | some u =>
        .ok (store ++ [{ _id := newId, text := text, createdAt := now,
                         owner := uid, username := u.username }])

/-- The `tasks.remove` method.  Checks `taskId` is a string and removes every
document whose `_id` matches it (at most one, `_id` being unique).  The
invocation context is unused: the handler performs no authentication or
ownership check. -/
def tasksRemove (ctx : MethodCtx) (idArg : DynVal) (store : List Task) :
    Except MeteorError (List Task) :=
  match checkString idArg with
  | .error e => .error e
  | .ok taskId => .ok (store.filter (fun t => !(t._id == taskId)))

/-- The `tasks.setChecked` method.  Checks `taskId` is a string and
`setChecked` a boolean, then applies `$set: (checked: value)` to the document
whose `_id` matches (`_id` being unique, updating every match coincides with
Mongo's single-document update).  The invocation context is unused: no
authentication or ownership check. -/
def tasksSetChecked (ctx : MethodCtx) (idArg valArg : DynVal)
    (store : List Task) : Except MeteorError (List Task) :=
  match checkString idArg with
  | .error e => .error e
  | .ok taskId =>
    match checkBool valArg with
    | .error e => .error e
    | .ok v =>
      .ok (store.map (fun t =>
        if t._id == taskId then { t with checked := some v } else t))

/-- The `tasks` publication: the documents matching
`$or: [ (private: ($ne: true)), (owner: this.userId) ]` for a connection
whose authenticated user id is `userId` (a Mongo `(owner: null)` clause never
matches, `owner` always being a string). -/
def tasksPublication (userId : Option String) (store : List Task) :
    List Task :=
  store.filter (fun t => !(t.«private» == some true) || some t.owner == userId)

/-- Models `Tasks.find((), (sort: (createdAt: -1))).fetch()`: the visible
documents sorted by `createdAt` descending. -/
def fetchSortedByCreatedAtDesc (store : List Task) : List Task :=
  store.mergeSort (fun a b => decide (b.createdAt ≤ a.createdAt))

/-- The reactive data computed by the `withTracker` container. -/
structure ViewModel where
  tasks : List Task
  incompleteCount : Nat
  currentUser : Option UserDoc
  deriving Repr

/-- The `withTracker` container body: the sorted visible task list, the count
of documents matching `(checked: ($ne: true))`, and `Meteor.user()`. -/
def withTrackerData (visible : List Task) (user : Option UserDoc) :
    ViewModel :=
  { tasks := fetchSortedByCreatedAtDesc visible,
    incompleteCount := (visible.filter (fun t => !(t.checked == some true))).length,
    currentUser := user }

/-- One `<Task>` element produced by `renderTasks`. -/
structure RenderedTask where
  showPrivateButton : Bool
  key : String
  task : Task
  deriving DecidableEq, Repr

/-- The `renderTasks` function of the `App` component: filters by
`hideCompleted ? !task.checked : true`, then maps each task to an element
with `showPrivateButton = (task.owner === currentUserId)` where
`currentUserId = currentUser && currentUser._id`. -/
def renderTasks (hideCompleted : Bool) (currentUser : Option UserDoc)
    (tasks : List Task) : List RenderedTask :=
  let currentUserId := currentUser.map (fun u => u._id)
  (tasks.filter (fun task =>
      if hideCompleted then !(task.checked == some true) else true)).map
    (fun task =>
      { showPrivateButton := some task.owner == currentUserId,
        key := task._id, task := task })

/-- A method invocation, with the ambient data the handler reads: the
invocation context, and for `tasks.insert` the users collection, the clock
value and the store-assigned id of the document to create. -/
inductive MethodCall where
  | insert (ctx : MethodCtx) (users : List UserDoc) (now : Nat)
      (newId : String) (textArg : DynVal)
  | remove (ctx : MethodCtx) (idArg : DynVal)
  | setChecked (ctx : MethodCtx) (idArg valArg : DynVal)
  deriving Repr

/-- Dispatches a method call to its handler. -/
def applyCall (c : MethodCall) (store : List Task) :
    Except MeteorError (List Task) :=
  match c with
  | .insert ctx users now newId a => tasksInsert ctx users now newId a store
  | .remove ctx a => tasksRemove ctx a store
  | .setChecked ctx a b => tasksSetChecked ctx a b store

/-- The store after a method call: a failing call leaves it unchanged. -/
def runCall (c : MethodCall) (store : List Task) : List Task :=
  match applyCall c store with
  | .ok s => s
  | .error _ => store

/-- The store after a sequence of method calls. -/
def runCalls : List MethodCall → List Task → List Task
  | [], store => store
  | c :: cs, store => runCalls cs (runCall c store)

/-- Two task documents agree on all creation-time fields; only `checked`
and `private` may differ. -/
def sameImmut (t t' : Task) : Prop :=
  t'._id = t._id ∧ t'.text = t.text ∧ t'.createdAt = t.createdAt ∧
  t'.owner = t.owner ∧ t'.username = t.username

/-- The creation-time fields of `t'` are exactly those a given method call
would write: only an authenticated `tasks.insert` creates documents, with
`_id` the store-assigned id, `createdAt` the clock value, `owner` the
caller's id, `username` read from the caller's user document, and `text`
the string argument. -/
def createdBy (c : MethodCall) (t' : Task) : Prop :=
  match c with
  | .insert ctx users now newId textArg =>
      t'._id = newId ∧ t'.createdAt = now ∧ ctx.userId = some t'.owner ∧
      (∃ u, usersFindOne users t'.owner = some u ∧ t'.username = u.username) ∧
      textArg = .str t'.text
  | .remove _ _ => False
  | .setChecked _ _ _ => False

/-- A sample public task document, used to instantiate theorems. -/
def taskMilk : Task :=
  { _id := "t1", text := "buy milk", createdAt := 5,
    owner := "alice", username := "Alice" }

/-- A sample private task document owned by `alice`. -/
def taskSecret : Task :=
  { _id := "t2", text := "secret", createdAt := 7, owner := "alice",
    username := "Alice", checked := some false, «private» := some true }

/-- A sample user document. -/
def userAlice : UserDoc := { _id := "alice", username := "Alice" }

/-- C1: a task with `private = true` and `owner = A` is excluded by the
publish filter for a connection authenticated as `B ≠ A` and included for a
connection authenticated as `A`; a task with `private` not equal to `true`
is included for every connection. -/
theorem tasksPublication_private_visibility (store : List Task) (t : Task)
    (A B : String) (ht : t ∈ store) :
    (t.«private» = some true → t.owner = A → B ≠ A →
      t ∉ tasksPublication (some B) store) ∧
    (t.owner = A → t ∈ tasksPublication (some A) store) ∧
    (t.«private» ≠ some true → ∀ u, t ∈ tasksPublication u store) := by
  refine ⟨fun hp hA hBA hmem => ?_, fun hA => ?_, fun hp u => ?_⟩
  · rw [tasksPublication, List.mem_filter] at hmem
    simp [hp, hA] at hmem
    exact hBA hmem.2.symm
  · rw [tasksPublication, List.mem_filter]
    simp [hA, ht]
  · rw [tasksPublication, List.mem_filter]
    simp [ht]
    exact Or.inl hp

/-- Witness for C1 at a concrete store: `alice`'s private task is invisible
to `bob` and visible to `alice`, and the public task is visible to `bob`. -/
theorem tasksPublication_private_visibility_witness :
    taskSecret ∉ tasksPublication (some "bob") [taskMilk, taskSecret] ∧
    taskSecret ∈ tasksPublication (some "alice") [taskMilk, taskSecret] ∧
    taskMilk ∈ tasksPublication (some "bob") [taskMilk, taskSecret] := by
  refine ⟨?_, ?_, ?_⟩
  · exact (tasksPublication_private_visibility [taskMilk, taskSecret]
      taskSecret "alice" "bob" (by simp)).1 rfl rfl (by decide)
  · exact (tasksPublication_private_visibility [taskMilk, taskSecret]
      taskSecret "alice" "bob" (by simp)).2.1 rfl
  · exact (tasksPublication_private_visibility [taskMilk, taskSecret]
      taskMilk "alice" "bob" (by simp)).2.2 (by decide) (some "bob")

/-- C2: a `tasks.insert` call with no authenticated caller fails with the
`not-authorized` error when the argument is a string, and whatever the
argument, the store is unchanged: no record is ever created. -/
theorem tasksInsert_unauthenticated (users : List UserDoc) (now : Nat)
    (newId : String) (text : String) (store : List Task) :
    tasksInsert ⟨none⟩ users now newId (.str text) store =
      .error .notAuthorized ∧
    runCall (.insert ⟨none⟩ users now newId (.str text)) store = store ∧
    ∀ a : DynVal, runCall (.insert ⟨none⟩ users now newId a) store = store := by
  refine ⟨rfl, rfl, fun a => ?_⟩
  cases a <;> rfl

/-- C3: a `tasks.insert` call from an authenticated caller `uid` whose user
document exists appends exactly one new document, with `text` the argument,
`owner = uid`, `username` from the user document, `checked` and `private`
unset, and `createdAt` equal to (hence no later than) the clock value at the
call; all pre-existing documents are unchanged. -/
theorem tasksInsert_authenticated (users : List UserDoc) (now : Nat)
    (newId uid : String) (text : String) (store : List Task) (u : UserDoc)
    (hu : usersFindOne users uid = some u) :
    tasksInsert ⟨some uid⟩ users now newId (.str text) store =
      .ok (store ++ [{ _id := newId, text := text, createdAt := now,
                       owner := uid, username := u.username,
                       checked := none, «private» := none }]) := by
  simp [tasksInsert, checkString, hu]

/-- Witness for C3: `alice` inserting into the empty store creates exactly
her task document. -/
theorem tasksInsert_authenticated_witness :
    tasksInsert ⟨some "alice"⟩ [userAlice] 5 "t1" (.str "buy milk") [] =
      .ok [{ _id := "t1", text := "buy milk", createdAt := 5,
             owner := "alice", username := "Alice",
             checked := none, «private» := none }] := by
  exact tasksInsert_authenticated [userAlice] 5 "t1" "alice" "buy milk" []
    userAlice (by decide)

/-- Helper: `check(x, String)` fails with a match error on every non-string
argument. -/
theorem checkString_not_str (a : DynVal) (h : ∀ s, a ≠ .str s) :
    checkString a = .error .matchError := by
  cases a with
  | str s => exact absurd rfl (h s)
  | bool b => rfl
  | num n => rfl
  | nullv => rfl

/-- Helper: `check(x, Boolean)` fails with a match error on every non-boolean
argument. -/
theorem checkBool_not_bool (b : DynVal) (h : ∀ w, b ≠ .bool w) :
    checkBool b = .error .matchError := by
  cases b with
  | str s => rfl
  | bool w => exact absurd rfl (h w)
  | num n => rfl
  | nullv => rfl

/-- C4: `tasks.setChecked(id, v)` on a store containing a task with that id
succeeds, and pointwise each document keeps its `_id`, `text`, `createdAt`,
`owner`, `username` and `private` fields; the document whose `_id` matches
gets `checked = v`, and every other document is completely unchanged. -/
theorem tasksSetChecked_frame (ctx : MethodCtx) (id : String) (v : Bool)
    (store : List Task) (hex : ∃ t ∈ store, t._id = id) :
    ∃ newStore,
      tasksSetChecked ctx (.str id) (.bool v) store = .ok newStore ∧
      List.Forall₂ (fun t t' =>
        t'._id = t._id ∧ t'.text = t.text ∧ t'.createdAt = t.createdAt ∧
        t'.owner = t.owner ∧ t'.username = t.username ∧
        t'.«private» = t.«private» ∧
        (t._id = id → t'.checked = some v) ∧
        (t._id ≠ id → t' = t)) store newStore := by
  refine ⟨_, rfl, ?_⟩
  rw [List.forall₂_map_right_iff, List.forall₂_same]
  intro x hx
  by_cases hid : x._id = id <;> simp [hid]

/-- Witness for C4 at a concrete store of one task. -/
theorem tasksSetChecked_frame_witness :
    ∃ newStore,
      tasksSetChecked ⟨none⟩ (.str "t1") (.bool true) [taskMilk] =
        .ok newStore ∧
      List.Forall₂ (fun t t' =>
        t'._id = t._id ∧ t'.text = t.text ∧ t'.createdAt = t.createdAt ∧
        t'.owner = t.owner ∧ t'.username = t.username ∧
        t'.«private» = t.«private» ∧
        (t._id = "t1" → t'.checked = some true) ∧
        (t._id ≠ "t1" → t' = t)) [taskMilk] newStore :=
  tasksSetChecked_frame ⟨none⟩ "t1" true [taskMilk] ⟨taskMilk, by simp, rfl⟩

/-- C5: `tasks.remove(id)` on a store containing a task with that id
succeeds; every surviving document is a pre-existing one whose `_id` differs
from `id`, every pre-existing document with a different `_id` survives, and
the result is the same for every invocation context (no authentication or
ownership check). -/
theorem tasksRemove_spec (ctx : MethodCtx) (id : String) (store : List Task)
    (hex : ∃ t ∈ store, t._id = id) :
    ∃ newStore,
      tasksRemove ctx (.str id) store = .ok newStore ∧
      (∀ t ∈ newStore, t ∈ store ∧ t._id ≠ id) ∧
      (∀ t ∈ store, t._id ≠ id → t ∈ newStore) ∧
      (∀ ctx2 : MethodCtx,
        tasksRemove ctx2 (.str id) store = tasksRemove ctx (.str id) store) := by
  refine ⟨_, rfl, ?_, ?_, fun ctx2 => rfl⟩
  · intro t htm
    rw [List.mem_filter] at htm
    refine ⟨htm.1, ?_⟩
    simpa using htm.2
  · intro t hts hne
    rw [List.mem_filter]
    simp [hts, hne]

/-- Witness for C5: removing `t2` from a two-task store keeps `t1`. -/
theorem tasksRemove_spec_witness :
    ∃ newStore,
      tasksRemove ⟨none⟩ (.str "t2") [taskMilk, taskSecret] = .ok newStore ∧
      (∀ t ∈ newStore, t ∈ [taskMilk, taskSecret] ∧ t._id ≠ "t2") ∧
      (∀ t ∈ [taskMilk, taskSecret], t._id ≠ "t2" → t ∈ newStore) ∧
      (∀ ctx2 : MethodCtx,
        tasksRemove ctx2 (.str "t2") [taskMilk, taskSecret] =
          tasksRemove ⟨none⟩ (.str "t2") [taskMilk, taskSecret]) :=
  tasksRemove_spec ⟨none⟩ "t2" [taskMilk, taskSecret]
    ⟨taskSecret, by simp, rfl⟩

/-- C6: a method call whose argument does not have the declared type fails
with a validation (match) error and leaves the store unchanged: `tasks.insert`
and `tasks.remove` with a non-string argument, and `tasks.setChecked` with a
non-string id or non-boolean value. -/
theorem methods_reject_type_mismatch (ctx : MethodCtx) (users : List UserDoc)
    (now : Nat) (newId : String) (store : List Task) (a b : DynVal) :
    ((∀ s, a ≠ .str s) →
      tasksInsert ctx users now newId a store = .error .matchError ∧
      runCall (.insert ctx users now newId a) store = store) ∧
    ((∀ s, a ≠ .str s) →
      tasksRemove ctx a store = .error .matchError ∧
      runCall (.remove ctx a) store = store) ∧
    (((∀ s, a ≠ .str s) ∨ (∀ w, b ≠ .bool w)) →
      tasksSetChecked ctx a b store = .error .matchError ∧
      runCall (.setChecked ctx a b) store = store) := by
  refine ⟨fun h => ?_, fun h => ?_, fun h => ?_⟩
  · have hs := checkString_not_str a h
    exact ⟨by simp [tasksInsert, hs], by simp [runCall, applyCall, tasksInsert, hs]⟩
  · have hs := checkString_not_str a h
    exact ⟨by simp [tasksRemove, hs], by simp [runCall, applyCall, tasksRemove, hs]⟩
  · rcases h with h | h
    · have hs := checkString_not_str a h
      exact ⟨by simp [tasksSetChecked, hs],
             by simp [runCall, applyCall, tasksSetChecked, hs]⟩
    · have hb := checkBool_not_bool b h
      cases a <;>
        exact ⟨by simp [tasksSetChecked, checkString, hb],
               by simp [runCall, applyCall, tasksSetChecked, checkString, hb]⟩

/-- Witness for C6: a boolean `text`, a boolean `taskId` and a numeric
`setChecked` value are each rejected with a match error, the store staying
intact. -/
theorem methods_reject_type_mismatch_witness :
    (tasksInsert ⟨some "alice"⟩ [userAlice] 0 "t9" (.bool true) [taskMilk] =
        .error .matchError ∧
      runCall (.insert ⟨some "alice"⟩ [userAlice] 0 "t9" (.bool true))
        [taskMilk] = [taskMilk]) ∧
    (tasksRemove ⟨none⟩ (.bool true) [taskMilk] = .error .matchError ∧
      runCall (.remove ⟨none⟩ (.bool true)) [taskMilk] = [taskMilk]) ∧
    (tasksSetChecked ⟨none⟩ (.str "t1") (.num 3) [taskMilk] =
        .error .matchError ∧
      runCall (.setChecked ⟨none⟩ (.str "t1") (.num 3)) [taskMilk] =
        [taskMilk]) := by
  refine ⟨?_, ?_, ?_⟩
  · exact (methods_reject_type_mismatch ⟨some "alice"⟩ [userAlice] 0 "t9"
      [taskMilk] (.bool true) (.num 3)).1 (by intro s; simp)
  · exact (methods_reject_type_mismatch ⟨none⟩ [] 0 "t9"
      [taskMilk] (.bool true) (.num 3)).2.1 (by intro s; simp)
  · exact (methods_reject_type_mismatch ⟨none⟩ [] 0 "t9"
      [taskMilk] (.str "t1") (.num 3)).2.2 (Or.inr (by intro w; simp))

/-- Helper: `check(x, String)` succeeds only on the string it returns. -/
theorem checkString_ok (a : DynVal) (s : String) (h : checkString a = .ok s) :
    a = .str s := by
  cases a with
  | str s2 =>
    simp [checkString] at h
    rw [h]
  | bool b => simp [checkString] at h
  | num n => simp [checkString] at h
  | nullv => simp [checkString] at h

/-- Helper: `sameImmut` is reflexive. -/
theorem sameImmut_refl (t : Task) : sameImmut t t := ⟨rfl, rfl, rfl, rfl, rfl⟩

/-- Helper: `sameImmut` is transitive. -/
theorem sameImmut_trans (t t1 t2 : Task) (h1 : sameImmut t t1)
    (h2 : sameImmut t1 t2) : sameImmut t t2 := by
  obtain ⟨a1, b1, c1, d1, e1⟩ := h1
  obtain ⟨a2, b2, c2, d2, e2⟩ := h2
  exact ⟨a2.trans a1, b2.trans b1, c2.trans c1, d2.trans d1, e2.trans e1⟩

/-- Helper: creation-time fields transfer along `sameImmut`. -/
theorem createdBy_of_sameImmut (c : MethodCall) (t1 t2 : Task)
    (h : createdBy c t1) (hs : sameImmut t1 t2) : createdBy c t2 := by
  cases c with
  | insert ctx users now newId a =>
    obtain ⟨h1, h2, h3, h4, h5⟩ := h
    obtain ⟨s1, s2, s3, s4, s5⟩ := hs
    refine ⟨s1.trans h1, s3.trans h2, ?_, ?_, ?_⟩
    · rw [s4]; exact h3
    · rw [s4, s5]; exact h4
    · rw [s2]; exact h5
  | remove ctx a => exact h.elim
  | setChecked ctx a b => exact h.elim

/-- Helper, one step of the invariant: every document in the store after one
method call either keeps the creation-time fields and the `private` field of
a pre-existing document, or was created by the call, with `private` unset. -/
theorem runCall_step (c : MethodCall) (store : List Task) :
    ∀ t1 ∈ runCall c store,
      (∃ t ∈ store, sameImmut t t1 ∧ t1.«private» = t.«private») ∨
      (createdBy c t1 ∧ t1.«private» = none) := by
  intro t1 ht1
  cases c with
  | insert ctx users now newId a =>
    cases hca : checkString a with
    | error e =>
      simp [runCall, applyCall, tasksInsert, hca] at ht1
      exact .inl ⟨t1, ht1, sameImmut_refl t1, rfl⟩
    | ok s =>
      have ha := checkString_ok a s hca
      cases hctx : ctx.userId with
      | none =>
        simp [runCall, applyCall, tasksInsert, hca, hctx] at ht1
        exact .inl ⟨t1, ht1, sameImmut_refl t1, rfl⟩
      | some uid =>
        cases hu : usersFindOne users uid with
        | none =>
          simp [runCall, applyCall, tasksInsert, hca, hctx, hu] at ht1
          exact .inl ⟨t1, ht1, sameImmut_refl t1, rfl⟩
        | some u =>
          simp [runCall, applyCall, tasksInsert, hca, hctx, hu] at ht1
          rcases ht1 with hmem | heq
          · exact .inl ⟨t1, hmem, sameImmut_refl t1, rfl⟩
          · subst heq
            exact .inr ⟨⟨rfl, rfl, hctx, ⟨u, hu, rfl⟩, by rw [ha]⟩, rfl⟩
  | remove ctx a =>
    cases hca : checkString a with
    | error e =>
      simp [runCall, applyCall, tasksRemove, hca] at ht1
      exact .inl ⟨t1, ht1, sameImmut_refl t1, rfl⟩
    | ok s =>
      simp [runCall, applyCall, tasksRemove, hca, List.mem_filter] at ht1
      exact .inl ⟨t1, ht1.1, sameImmut_refl t1, rfl⟩
  | setChecked ctx a b =>
    cases hca : checkString a with
    | error e =>
      simp [runCall, applyCall, tasksSetChecked, hca] at ht1
      exact .inl ⟨t1, ht1, sameImmut_refl t1, rfl⟩
    | ok s =>
      cases hcb : checkBool b with
      | error e =>
        simp [runCall, applyCall, tasksSetChecked, hca, hcb] at ht1
        exact .inl ⟨t1, ht1, sameImmut_refl t1, rfl⟩
      | ok w =>
        simp [runCall, applyCall, tasksSetChecked, hca, hcb, List.mem_map] at ht1
        rcases ht1 with ⟨x, hx, hupd⟩
        subst hupd
        refine .inl ⟨x, hx, ?_⟩
        by_cases hid : x._id = s <;> simp [hid, sameImmut]

/-- C7: over any sequence of method calls, every document in the final store
either keeps the `_id`, `text`, `createdAt`, `owner` and `username` of a
document of the initial store, or carries exactly the creation-time fields
written by one of the `tasks.insert` calls of the sequence: the creation-time
fields are never modified after creation, only `checked` and `private` can
change. -/
theorem immutable_after_creation (store : List Task) (cs : List MethodCall) :
    ∀ t2 ∈ runCalls cs store,
      (∃ t ∈ store, sameImmut t t2) ∨ (∃ c ∈ cs, createdBy c t2) := by
  induction cs generalizing store with
  | nil =>
    intro t2 ht2
    exact .inl ⟨t2, ht2, sameImmut_refl t2⟩
  | cons c cs ih =>
    intro t2 ht2
    rw [runCalls] at ht2
    rcases ih (runCall c store) t2 ht2 with ⟨t1, ht1, hs⟩ | ⟨c2, hc2, hcb⟩
    · rcases runCall_step c store t1 ht1 with ⟨t, ht, hs0, _⟩ | ⟨hcb, _⟩
      · exact .inl ⟨t, ht, sameImmut_trans t t1 t2 hs0 hs⟩
      · exact .inr ⟨c, List.mem_cons_self c cs,
          createdBy_of_sameImmut c t1 t2 hcb hs⟩
    · exact .inr ⟨c2, List.mem_cons_of_mem c hc2, hcb⟩

/-- Witness for C7: after toggling `checked` on `alice`'s task, the resulting
document still carries the creation-time fields of the original. -/
theorem immutable_after_creation_witness :
    (∃ t ∈ [taskMilk], sameImmut t { taskMilk with checked := some true }) ∨
    (∃ c ∈ [MethodCall.setChecked ⟨some "alice"⟩ (.str "t1") (.bool true)],
      createdBy c { taskMilk with checked := some true }) :=
  immutable_after_creation [taskMilk]
    [MethodCall.setChecked ⟨some "alice"⟩ (.str "t1") (.bool true)]
    { taskMilk with checked := some true } (by decide)

/-- C8: the `withTracker` container derives the visible task list as a
permutation of the visible set sorted by `createdAt` descending, an
incomplete count equal to the number of documents whose `checked` field is
unset or `false`, and the current authenticated user object. -/
theorem withTrackerData_spec (visible : List Task) (user : Option UserDoc) :
    List.Perm (withTrackerData visible user).tasks visible ∧
    List.Pairwise (fun a b => b.createdAt ≤ a.createdAt)
      (withTrackerData visible user).tasks ∧
    (withTrackerData visible user).incompleteCount =
      visible.countP (fun t => t.checked == none || t.checked == some false) ∧
    (withTrackerData visible user).currentUser = user := by
  refine ⟨List.mergeSort_perm visible _, ?_, ?_, rfl⟩
  · have h := @List.sorted_mergeSort Task
      (fun a b => decide (b.createdAt ≤ a.createdAt))
      (fun a b c hab hbc => by
        simp only [decide_eq_true_eq] at hab hbc ⊢
        omega)
      (fun a b => by
        simp only [Bool.or_eq_true, decide_eq_true_eq]
        omega)
      visible
    exact List.Pairwise.imp (fun hab => by simpa using hab) h
  · show (visible.filter (fun t => !(t.checked == some true))).length = _
    rw [List.countP_eq_length_filter]
    congr 1
    apply List.filter_congr
    intro t _
    cases t.checked with
    | none => rfl
    | some b => cases b <;> rfl

/-- C9: `renderTasks` displays, in list order, exactly the tasks whose
`checked` is not `true` when the hide-completed toggle is on and all tasks
when it is off, and an element shows the private affordance exactly when the
task's `owner` equals the current user's id. -/
theorem renderTasks_spec (hideCompleted : Bool) (currentUser : Option UserDoc)
    (tasks : List Task) :
    (renderTasks true currentUser tasks).map RenderedTask.task =
      tasks.filter (fun t => !(t.checked == some true)) ∧
    (renderTasks false currentUser tasks).map RenderedTask.task = tasks ∧
    ∀ r ∈ renderTasks hideCompleted currentUser tasks,
      (r.showPrivateButton = true ↔
        ∃ u, currentUser = some u ∧ r.task.owner = u._id) := by
  refine ⟨?_, ?_, ?_⟩
  · simp [renderTasks, List.map_map, Function.comp_def]
  · simp [renderTasks, List.map_map, Function.comp_def]
  · intro r hr
    simp [renderTasks, List.mem_map] at hr
    rcases hr with ⟨task, htask, hre⟩
    subst hre
    cases currentUser with
    | none => simp
    | some u => simp

/-- Witness for C9: with `alice` logged in, her rendered task shows the
private affordance. -/
theorem renderTasks_spec_witness :
    ({ showPrivateButton := true, key := "t1", task := taskMilk :
        RenderedTask }.showPrivateButton = true ↔
      ∃ u, some userAlice = some u ∧
        ({ showPrivateButton := true, key := "t1", task := taskMilk :
            RenderedTask }).task.owner = u._id) :=
  (renderTasks_spec true (some userAlice) [taskMilk]).2.2
    { showPrivateButton := true, key := "t1", task := taskMilk } (by decide)

/-- Helper: no method call ever writes the `private` field, so a store whose
documents all have `private` unset keeps that property under any sequence of
method calls. -/
theorem runCalls_private_none : ∀ (cs : List MethodCall) (store : List Task),
    (∀ t ∈ store, t.«private» = none) →
    ∀ t ∈ runCalls cs store, t.«private» = none := by
  intro cs
  induction cs with
  | nil => intro store h t ht; exact h t ht
  | cons c cs ih =>
    intro store h t ht
    rw [runCalls] at ht
    refine ih (runCall c store) (fun x hx => ?_) t ht
    rcases runCall_step c store x hx with ⟨y, hy, _, hpy⟩ | ⟨_, hpx⟩
    · rw [hpy]; exact h y hy
    · exact hpx

/-- C10: the method layer never sets `private`: starting from a store whose
documents all have `private` unset, after any sequence of method calls every
document still has `private` unset, and the publish filter therefore returns
the whole store for every connection. -/
theorem methods_private_stays_unset (store : List Task)
    (cs : List MethodCall) (h : ∀ t ∈ store, t.«private» = none) :
    (∀ t ∈ runCalls cs store, t.«private» = none) ∧
    ∀ u, tasksPublication u (runCalls cs store) = runCalls cs store := by
  have hall := runCalls_private_none cs store h
  refine ⟨hall, fun u => ?_⟩
  rw [tasksPublication]
  apply List.filter_eq_self.mpr
  intro t ht
  simp [hall t ht]

/-- Witness for C10: after an insert and a `setChecked`, both documents still
have `private` unset and the publication returns the whole store, even for
`bob`. -/
theorem methods_private_stays_unset_witness :
    ({ taskMilk with checked := some true } : Task).«private» = none ∧
    tasksPublication (some "bob")
      (runCalls [MethodCall.setChecked ⟨some "alice"⟩ (.str "t1") (.bool true)]
        [taskMilk]) =
      runCalls [MethodCall.setChecked ⟨some "alice"⟩ (.str "t1") (.bool true)]
        [taskMilk] := by
  have h := methods_private_stays_unset [taskMilk]
    [MethodCall.setChecked ⟨some "alice"⟩ (.str "t1") (.bool true)]
    (by intro t ht; simp at ht; rw [ht]; rfl)
  exact ⟨h.1 { taskMilk with checked := some true } (by decide),
    h.2 (some "bob")⟩

end TodoApp
